import Mathlib

/-!
Shallow embedding of the access-control and audit subsystem of the
repository, namely `interpreter/core/utils/security.py` and
`interpreter/core/computer/files/files.py`.

Modelling conventions:
* Python strings are Lean `String`s.  The Python string primitives the
  source uses (`lower`, `strip`, `split`, `in`, `startswith`, `endswith`,
  slicing, `replace`) are modelled by executable functions over the
  underlying character list (`pyLower`, `pyTrim`, `pySplit`, `strContains`,
  `pyStartsWith`, `pyEndsWith`, `pyDrop`/`pyDropRight`, `pyReplace`), so
  that every definition evaluates by kernel reduction on concrete input.
  Whitespace is the ASCII whitespace recognised by `Char.isWhitespace`;
  all strings appearing in the repository's patterns, commands and tests
  are ASCII, where Python's notion agrees.
* The operating system is POSIX, where `os.path.normcase` is the
  identity, so `normcase` calls are dropped.
* Symlink resolution (`os.path.realpath`) depends on the filesystem and
  is modelled as an abstract environment function from a raw path string
  to the resolved absolute path, represented as its list of components.
  `os.path.commonpath` on two absolute component lists is their longest
  common component prefix (the `ValueError` branch of the source cannot
  fire once both arguments are absolute resolved paths).
* `fnmatch.fnmatch` is modelled by `globMatch`, supporting `*` and `?`.
  Bracket character classes are not modelled; no pattern appearing in the
  repository's guards, defaults or tests uses them.
* Wall-clock time is an abstract `Int` of seconds; one day is 86400
  seconds.  ISO-8601 timestamp parsing (`datetime.fromisoformat`) is an
  abstract partial function `String → Option Int`.
-/

namespace Security

/-! ## Python string primitives -/

/-- Contiguous-sublist test on lists: `needle` occurs inside `hay`. -/
def listContains (needle : List Char) : List Char → Bool
  | [] => needle.isEmpty
  | c :: cs => needle.isPrefixOf (c :: cs) || listContains needle cs

/-- Python `needle in hay` for strings: contiguous substring test. -/
def strContains (hay needle : String) : Bool :=
  listContains needle.data hay.data

/-- Python `s.lower()` (ASCII). -/
def pyLower (s : String) : String :=
  String.mk (s.data.map Char.toLower)

/-- Remove leading and trailing whitespace from a character list. -/
def trimChars (l : List Char) : List Char :=
  ((l.dropWhile Char.isWhitespace).reverse.dropWhile Char.isWhitespace).reverse

/-- Python `s.strip()`. -/
def pyTrim (s : String) : String :=
  String.mk (trimChars s.data)

/-- Split a character list on a separator character; always returns at
least one (possibly empty) piece, like Python `str.split(sep)`. -/
def splitOnChar (sep : Char) : List Char → List (List Char)
  | [] => [[]]
  | c :: cs =>
    let r := splitOnChar sep cs
    if c = sep then [] :: r
    else
      match r with
      | [] => [[c]]
      | h :: t => (c :: h) :: t

/-- Python `s.split(sep)` for a one-character separator, which is the only
form the source uses (`"|"` and `"/"`). -/
def pySplit (s : String) (sep : Char) : List String :=
  (splitOnChar sep s.data).map String.mk

/-- Python `s.startswith(pre)`. -/
def pyStartsWith (s pre : String) : Bool :=
  pre.data.isPrefixOf s.data

/-- Python `s.endswith(suf)`. -/
def pyEndsWith (s suf : String) : Bool :=
  suf.data.reverse.isPrefixOf s.data.reverse

/-- Python `s[n:]`. -/
def pyDrop (s : String) (n : Nat) : String :=
  String.mk (s.data.drop n)

/-- Python `s[:-n]` for `n ≤ len(s)`. -/
def pyDropRight (s : String) (n : Nat) : String :=
  String.mk (s.data.take (s.data.length - n))

/-- Python `s.isEmpty` test (`not s`). -/
def pyIsEmpty (s : String) : Bool :=
  s.data.isEmpty

/-- Python `s.rstrip("/")`: remove every trailing `/`. -/
def rstripSlash (s : String) : String :=
  String.mk ((s.data.reverse.dropWhile (fun c => c == '/')).reverse)

/-- Fuel-driven worker for `pyReplace`; the fuel starts at the length of
the text and strictly bounds the number of steps. -/
def replaceGo (pat rep : List Char) : Nat → List Char → List Char
  | 0, rest => rest
  | fuel + 1, hay =>
    match hay with
    | [] => []
    | c :: cs =>
      if pat.isPrefixOf hay && !pat.isEmpty then
        rep ++ replaceGo pat rep fuel (hay.drop pat.length)
      else c :: replaceGo pat rep fuel cs

/-- Python `s.replace(pat, rep)` for a nonempty pattern: replace every
non-overlapping occurrence, left to right.  (Python's behaviour for an
empty pattern — interleaving the replacement between all characters — is
not modelled; the identity is returned instead.  No property below
depends on the replaced text for an empty pattern.) -/
def pyReplace (s pat rep : String) : String :=
  String.mk (replaceGo pat.data rep.data s.data.length s.data)

/-- `os.path.basename` on a relative POSIX path: the text after the last
`/` (the whole string when there is no `/`). -/
def basename (s : String) : String :=
  (pySplit s '/').getLastD ""

/-- Glob matching over character lists, as `fnmatch.fnmatch` performs on a
POSIX system for patterns built from literals, `*` and `?` (`*` matches any
run of characters, including `/`, because `fnmatch` is not path-aware). -/
def globMatch : List Char → List Char → Bool
  | [], s => s.isEmpty
  | p :: ps, s =>
    if p = '*' then (List.tails s).any (fun suf => globMatch ps suf)
    else
      match s with
      | [] => false
      | c :: cs => (p == '?' || p == c) && globMatch ps cs

/-- `fnmatch.fnmatch(name, pat)` (POSIX: `normcase` is the identity). -/
def fnmatch (name pat : String) : Bool :=
  globMatch pat.data name.data

/-! ## 1. Command blocklist (`is_command_blocked`) -/

/-- The inner double loop of `is_command_blocked` for a two-part pipe
pattern: some stage starts with `p0` and some strictly later stage starts
with `p1`. -/
def existsOrderedStages (p0 p1 : String) : List String → Bool
  | [] => false
  | c :: rest =>
    (pyStartsWith c p0 && rest.any (fun d => pyStartsWith d p1))
      || existsOrderedStages p0 p1 rest

/-- The pipe-pattern branch of `is_command_blocked`: split the lowered,
trimmed pattern on `|`, split the code on `|` trimming whitespace around
each stage (the source splits on the regex `\s*\|\s*` and then strips each
part, which is the same as splitting on `|` and trimming each part, since
the code text was already stripped), and require a two-part pattern, at
least two stages, and an ordered match. -/
def pipePatternHit (patternLower codeLower : String) : Bool :=
  let patParts := (pySplit patternLower '|').map pyTrim
  let codeParts := (pySplit codeLower '|').map pyTrim
  match patParts with
  | [p0, p1] => decide (2 ≤ codeParts.length) && existsOrderedStages p0 p1 codeParts
  | _ => false

/-- One iteration of the pattern loop of `is_command_blocked`: the pipe
branch (when the pattern contains `|`) followed by the unconditional
substring test. -/
def blockedPatternMatches (codeLower pattern : String) : Bool :=
  let patternLower := pyTrim (pyLower pattern)
  (strContains patternLower "|" && pipePatternHit patternLower codeLower)
    || strContains codeLower patternLower

/-- `is_command_blocked(code)` against a loaded blocklist (the source reads
the process-wide cached list loaded from CSV; here it is a parameter).
Returns `(true, matched_pattern)` on the first matching pattern in load
order, else `(false, none)`. -/
def is_command_blocked (blocked : List String) (code : String) : Bool × Option String :=
  let codeLower := pyTrim (pyLower code)
  go codeLower blocked
where
  go (codeLower : String) : List String → Bool × Option String
    | [] => (false, none)
    | pattern :: rest =>
      if blockedPatternMatches codeLower pattern then (true, some pattern)
      else go codeLower rest

/-- The pipe-pattern matching condition exactly as the claim words it (a
refinement reference, deliberately written from the claim, not from the
source): split the pattern into exactly two sub-patterns, split the text
on pipe characters (with surrounding whitespace allowed) into ordered
stages, and report a match exactly when some stage begins with the left
sub-pattern and some strictly later stage begins with the right one. -/
def claimedPipeMatch (pattern code : String) : Bool :=
  let patParts := (pySplit (pyTrim (pyLower pattern)) '|').map pyTrim
  let stages := (pySplit (pyTrim (pyLower code)) '|').map pyTrim
  match patParts with
  | [l, r] => existsOrderedStages l r stages
  | _ => false

/-! ## 2. Gitignore matching and the file access guard -/

/-- One iteration of the pattern loop of `_match_gitignore`: strip a
leading `!` (negation) and trailing `/`, test the four match forms
(full-path glob, basename glob, `dir/**` prefix, exact-or-directory
prefix), and on a match replace the running ignored state with the
non-negation flag. -/
def gitignoreStep (rel_path : String) (ignored : Bool) (pattern : String) : Bool :=
  let is_negation := pyStartsWith pattern "!"
  let raw_pat := if is_negation then pyDrop pattern 1 else pattern
  let pat := rstripSlash raw_pat
  let matched :=
    fnmatch rel_path pat
      || fnmatch (basename rel_path) pat
      || (pyEndsWith pat "/**" && pyStartsWith rel_path (pyDropRight pat 3))
      || (rel_path == pat || pyStartsWith rel_path (pat ++ "/"))
  if matched then !is_negation else ignored

/-- `_match_gitignore(rel_path, patterns)`: evaluate the patterns in file
order, a later match overriding the running state. -/
def match_gitignore (rel_path : String) (patterns : List String) : Bool :=
  patterns.foldl (gitignoreStep rel_path) false

/-- The state of a `FileAccessGuard` after construction: the enabled flag,
the (absolutised) working directory when configured, and the patterns read
from the working directory's `.gitignore` followed by its `.ai-ignore`. -/
structure FileAccessGuard where
  enabled : Bool
  working_dir : Option String
  gitignore_patterns : List String

/-- The filesystem environment visible to `is_path_allowed`:
`os.path.realpath` resolves a raw path string (following symlinks) to an
absolute path, represented as its list of components. -/
structure ResolveEnv where
  realpath : String → List String

/-- Wrap a string in single quotes, as the f-strings of
`is_path_allowed` do around the offending path. -/
def quoted (s : String) : String :=
  String.singleton '\x27' ++ s ++ String.singleton '\x27'

/-- `os.path.commonpath` on two absolute paths given as component lists:
their longest common component prefix. -/
def commonpath : List String → List String → List String
  | a :: as, b :: bs => if a = b then a :: commonpath as bs else []
  | _, _ => []

/-- Join path components with `/`. -/
def joinComponents : List String → String
  | [] => ""
  | [x] => x
  | x :: xs => x ++ "/" ++ joinComponents xs

/-- `os.path.relpath(abs_path, working_dir)` in the case reached by
`is_path_allowed`, where `working_dir` is a component prefix of
`abs_path`: join the remaining components with `/` (or `.` when the two
paths are equal). -/
def relpathUnder (working_dir abs_path : List String) : String :=
  let rest := abs_path.drop working_dir.length
  if rest.isEmpty then "." else joinComponents rest

/-- `FileAccessGuard.is_path_allowed(path)`: allow everything when the
guard is disabled or unconfigured; otherwise resolve symlinks on both the
candidate and the working directory, deny when the resolved candidate is
not under the resolved working directory, deny when the relative path
matches a gitignore pattern, and allow otherwise. -/
def is_path_allowed (env : ResolveEnv) (g : FileAccessGuard) (path : String) :
    Bool × String :=
  if !g.enabled || g.working_dir.isNone then (true, "")
  else
    let abs_path := env.realpath path
    let working_dir := env.realpath (g.working_dir.getD "")
    if commonpath working_dir abs_path ≠ working_dir then
      (false, "Path " ++ quoted path ++ " is outside the allowed working directory.")
    else
      let rel := relpathUnder working_dir abs_path
      if !g.gitignore_patterns.isEmpty && match_gitignore rel g.gitignore_patterns then
        (false, "Path " ++ quoted path ++ " matches a .gitignore pattern and is blocked.")
      else (true, "")

/-! ## 3. Code reference scanner (`check_code_for_protected_access`) -/

/-- The pattern loop of `check_code_for_protected_access`: skip negated
patterns and patterns empty after stripping trailing `/`; for a pattern
beginning with `*`, flag when its (nonempty) remaining suffix occurs in
the code; otherwise flag when the stripped pattern text occurs in the
code.  Stops at the first flagged pattern. -/
def protectedScanLoop (code : String) : List String → Bool × String
  | [] => (false, "")
  | pattern :: rest =>
    if pyStartsWith pattern "!" then protectedScanLoop code rest
    else
      let clean := rstripSlash pattern
      if pyIsEmpty clean then protectedScanLoop code rest
      else if pyStartsWith clean "*" then
        let suffix := pyDrop clean 1
        if !pyIsEmpty suffix && strContains code suffix then
          (true, "Code references protected pattern " ++ quoted pattern)
        else protectedScanLoop code rest
      else if strContains code clean then
        (true, "Code references protected file/directory " ++ quoted pattern)
      else protectedScanLoop code rest

/-- `check_code_for_protected_access(code, guard)`: immediately not
flagged when the guard is absent (`None`), disabled, or has no patterns;
otherwise run the pattern loop. -/
def check_code_for_protected_access (code : String) (guard : Option FileAccessGuard) :
    Bool × String :=
  match guard with
  | none => (false, "")
  | some g =>
    if !g.enabled || g.gitignore_patterns.isEmpty then (false, "")
    else protectedScanLoop code g.gitignore_patterns

/-- The flagging condition exactly as the claim words it (a refinement
reference, deliberately written from the claim, not from the source): a
non-negated pattern, with trailing `/` stripped, flags when it begins with
`*` and its remaining suffix occurs as a substring of the code, or when it
does not begin with `*` and its literal text occurs as a substring. -/
def claimedScanCondition (code pattern : String) : Bool :=
  let clean := rstripSlash pattern
  !pyStartsWith pattern "!" &&
    (if pyStartsWith clean "*" then strContains code (pyDrop clean 1)
     else strContains code clean)

/-- The whole scanner as the claim words it: not flagged for an absent,
disabled or patternless guard, else flagged exactly when some pattern
satisfies `claimedScanCondition`. -/
def claimedScanFlag (code : String) (guard : Option FileAccessGuard) : Bool :=
  match guard with
  | none => false
  | some g =>
    if !g.enabled || g.gitignore_patterns.isEmpty then false
    else g.gitignore_patterns.any (claimedScanCondition code)

/-- The flagging condition the source actually implements, per pattern:
as `claimedScanCondition`, but a pattern that is empty after stripping is
skipped, and a wildcard pattern with an empty remaining suffix is
skipped. -/
def amendedScanCondition (code pattern : String) : Bool :=
  let clean := rstripSlash pattern
  !pyStartsWith pattern "!" && !pyIsEmpty clean &&
    (if pyStartsWith clean "*" then
      !pyIsEmpty (pyDrop clean 1) && strContains code (pyDrop clean 1)
     else strContains code clean)

/-! ## 4. Audit logging (`audit_log`, `cleanup_audit_log`) -/

/-- The audit log file as `audit_log` observes it: mode bits and text
contents, or `none` when absent. -/
structure AuditFileState where
  mode : Nat
  contents : String
deriving DecidableEq, Repr

/-- Which OS calls of one `audit_log` invocation fail with `OSError`: the
`os.makedirs` of `_ensure_audit_dir`, the `os.open`, and the `os.write`
(modelled all-or-nothing). -/
structure OsFault where
  mkdirFails : Bool
  openFails : Bool
  writeFails : Bool
deriving DecidableEq, Repr

/-- No OS call fails. -/
def OsFault.nofault : OsFault := ⟨false, false, false⟩

/-- The body of the `try` block of `audit_log`: ensure the directory,
format the line, open with `O_WRONLY|O_CREAT|O_APPEND` and mode `0o600`
(creating the file with mode `0o600` when absent, leaving an existing
file's mode alone), and append the encoded line.  An `OSError` carries the
file state at the point of failure (after a successful create, the file
exists even when the write then fails). -/
def auditLogRaw (fault : OsFault) (line : String) (fs : Option AuditFileState) :
    Except (Option AuditFileState) (Option AuditFileState) :=
  if fault.mkdirFails then .error fs
  else if fault.openFails then .error fs
  else
    let f := fs.getD ⟨0o600, ""⟩
    if fault.writeFails then .error (some f)
    else .ok (some ⟨f.mode, f.contents ++ line⟩)

/-- `audit_log(event_type, details)` with the wall clock abstracted to the
already-formatted UTC ISO-8601 timestamp string `ts`: format
`ts | event_type | details` plus a newline, run the raw I/O, and catch any
`OSError`, printing a warning to stderr (returned as a list of stderr
lines) instead of propagating it. -/
def audit_log (fault : OsFault) (ts event_type details : String)
    (fs : Option AuditFileState) : Option AuditFileState × List String :=
  let line := ts ++ " | " ++ event_type ++ " | " ++ details ++ "\n"
  match auditLogRaw fault line fs with
  | .ok fs2 => (fs2, [])
  | .error fs2 => (fs2, ["Warning: failed to write audit log"])

/-- `line.split("|", 1)[0]`: the text before the first `|`, or the whole
line when it has no `|`. -/
def beforeFirstPipe (line : String) : String :=
  (pySplit line '|').headD ""

/-- The timestamp normalisation `cleanup_audit_log` applies before
parsing: strip surrounding whitespace and replace every `Z` with
`+00:00`. -/
def normalizeTimestampText (s : String) : String :=
  pyReplace (pyTrim s) "Z" "+00:00"

/-- The keep decision of `cleanup_audit_log` for one line: parse the
normalised text before the first `|` (`datetime.fromisoformat`, abstracted
to `parseIso`, landing in seconds); keep when it parses to a time
`≥ cutoff`, and keep unconditionally when it does not parse. -/
def keepLine (parseIso : String → Option Int) (cutoff : Int) (line : String) : Bool :=
  match parseIso (normalizeTimestampText (beforeFirstPipe line)) with
  | some ts => decide (cutoff ≤ ts)
  | Option.none => true

/-- `cleanup_audit_log(max_age_days)` on the log's lines: the cutoff is
`now` minus `max_age_days` days (86400 seconds each), and the rewritten
file holds exactly the kept lines, in order. -/
def cleanup_audit_log (parseIso : String → Option Int) (now : Int)
    (max_age_days : Int) (lines : List String) : List String :=
  lines.filter (keepLine parseIso (now - max_age_days * 86400))

/-! ## 5. The file-operation component (`files.py`) -/

/-- The externally observable actions `Files.edit` takes, in order: an
`audit_log(event_type, details)` call, the read of the target file, and
the write of the target file. -/
inductive FsEvent where
  | audit (event_type details : String)
  | readTarget
  | writeTarget
deriving DecidableEq, Repr

/-- The exceptions `Files.edit` can raise: `PermissionError(reason)` from
`_check_access`, or the `ValueError` for an original text that is absent
but has close matches. -/
inductive EditErr where
  | permission (reason : String)
  | valueErr (msg : String)
deriving DecidableEq, Repr

namespace Files

/-- `Files._check_access(path)`: ask the guard; on a deny, append a
`file_access_denied` audit entry and raise `PermissionError` carrying the
guard's reason. -/
def check_access (env : ResolveEnv) (g : FileAccessGuard) (path : String) :
    Except String Unit × List FsEvent :=
  let res := is_path_allowed env g path
  if !res.1 then (.error res.2, [.audit "file_access_denied" res.2])
  else (.ok (), [])

/-- `Files.edit(path, original_text, replacement_text)`, with the target
file's current text passed as `filedata` and the floating-point
`get_close_matches_in_text` result abstracted as the oracle
`close_matches`: check access (propagating its `PermissionError`), append
a `file_edit` audit entry, read the file, raise `ValueError` when the
original text is absent but close matches exist, and otherwise write the
file with every occurrence of the original text replaced.  Returns the
exception or the written text, paired with the ordered event trace. -/
def edit (env : ResolveEnv) (g : FileAccessGuard)
    (path original_text replacement_text filedata : String)
    (close_matches : List String) : Except EditErr String × List FsEvent :=
  match check_access env g path with
  | (.error reason, evs) => (.error (.permission reason), evs)
  | (.ok _, evs) =>
    let evs := evs ++ [.audit "file_edit" ("path=" ++ path), .readTarget]
    if !strContains filedata original_text && !close_matches.isEmpty then
      (.error (.valueErr ("Original text not found. Did you mean one of these? "
        ++ String.intercalate ", " close_matches)), evs)
    else
      (.ok (pyReplace filedata original_text replacement_text),
        evs ++ [.writeTarget])

end Files

/-- A concrete resolution environment for the examples below: `/wd` is a
working directory; `/wd/debug.log`, `/wd/important.log`,
`/wd/secrets_public.txt` and `/wd/notes.txt` resolve inside it;
`/wd/link` (like every other path) is a symlink resolving to
`/etc/passwd`, outside it. -/
def exampleEnv : ResolveEnv :=
  ⟨fun s =>
    if s = "/wd" then ["", "wd"]
    else if s = "/wd/debug.log" then ["", "wd", "debug.log"]
    else if s = "/wd/important.log" then ["", "wd", "important.log"]
    else if s = "/wd/secrets_public.txt" then ["", "wd", "secrets_public.txt"]
    else if s = "/wd/notes.txt" then ["", "wd", "notes.txt"]
    else ["", "etc", "passwd"]⟩

/-! ## Helper lemmas -/

theorem listContains_append_left (n b : List Char) (h : listContains n b = true) :
    ∀ a : List Char, listContains n (a ++ b) = true := by
  intro a
  induction a with
  | nil => simpa using h
  | cons x xs ih =>
    simp only [List.cons_append, listContains, Bool.or_eq_true]
    exact Or.inr ih

theorem strContains_append_left (s t n : String) (h : strContains t n = true) :
    strContains (s ++ t) n = true := by
  simp only [strContains] at h ⊢
  rw [String.data_append]
  exact listContains_append_left _ _ h _

theorem commonpath_append (a r : List String) : commonpath a (a ++ r) = a := by
  induction a with
  | nil => rfl
  | cons x xs ih => simp [commonpath, ih]

theorem prefix_of_commonpath_eq (a b : List String) (h : commonpath a b = a) :
    a <+: b := by
  induction a generalizing b with
  | nil => exact List.nil_prefix
  | cons x xs ih =>
    match b with
    | [] => simp [commonpath] at h
    | y :: bs =>
      simp only [commonpath] at h
      by_cases hx : x = y
      · subst hx
        simp only [eq_self_iff_true, if_true, List.cons.injEq, true_and] at h
        obtain ⟨t, ht⟩ := ih bs h
        exact ⟨t, by simp [← ht]⟩
      · simp [hx] at h

theorem relpathUnder_append (w rest : List String) (h : rest ≠ []) :
    relpathUnder w (w ++ rest) = joinComponents rest := by
  simp only [relpathUnder, List.drop_left]
  cases rest with
  | nil => exact absurd rfl h
  | cons a l => rfl

theorem existsOrderedStages_length (p0 p1 : String) (parts : List String)
    (h : existsOrderedStages p0 p1 parts = true) : 2 ≤ parts.length := by
  induction parts with
  | nil => simp [existsOrderedStages] at h
  | cons c rest ih =>
    simp only [existsOrderedStages, Bool.or_eq_true, Bool.and_eq_true] at h
    rcases h with ⟨_, hany⟩ | hrec
    · rcases List.any_eq_true.mp hany with ⟨d, hd, _⟩
      cases rest with
      | nil => simp at hd
      | cons _ _ => simp [Nat.succ_le_succ, Nat.succ_le_succ_iff]
    · have := ih hrec
      simp only [List.length_cons]
      omega

theorem string_empty_append (s : String) : "" ++ s = s :=
  String.ext (by rw [String.data_append]; rfl)

theorem keepLine_iff (parseIso : String → Option Int) (cutoff : Int) (line : String) :
    keepLine parseIso cutoff line = true ↔
      ((∃ ts, parseIso (normalizeTimestampText (beforeFirstPipe line)) = some ts ∧
          cutoff ≤ ts) ∨
        parseIso (normalizeTimestampText (beforeFirstPipe line)) = none) := by
  unfold keepLine
  cases h : parseIso (normalizeTimestampText (beforeFirstPipe line)) with
  | none => simp [h]
  | some ts => simp [h]

theorem protectedScanLoop_eq (code : String) (pats : List String) :
    protectedScanLoop code pats =
      match pats.find? (amendedScanCondition code) with
      | some p =>
        (true,
          (if pyStartsWith (rstripSlash p) "*" then "Code references protected pattern "
           else "Code references protected file/directory ") ++ quoted p)
      | none => (false, "") := by
  induction pats with
  | nil => rfl
  | cons pattern rest ih =>
    cases hneg : pyStartsWith pattern "!" with
    | true =>
      have hc : amendedScanCondition code pattern = false := by
        simp [amendedScanCondition, hneg]
      simp [protectedScanLoop, List.find?, hneg, hc, ih]
    | false =>
      cases hclean : pyIsEmpty (rstripSlash pattern) with
      | true =>
        have hc : amendedScanCondition code pattern = false := by
          simp [amendedScanCondition, hneg, hclean]
        simp [protectedScanLoop, List.find?, hneg, hclean, hc, ih]
      | false =>
        cases hstar : pyStartsWith (rstripSlash pattern) "*" with
        | true =>
          cases hsuf : !pyIsEmpty (pyDrop (rstripSlash pattern) 1) &&
              strContains code (pyDrop (rstripSlash pattern) 1) with
          | true =>
            have hc : amendedScanCondition code pattern = true := by
              simp only [amendedScanCondition, hneg, hclean, hstar, if_true]
              simp_all
            simp [protectedScanLoop, List.find?, hneg, hclean, hstar, hsuf, hc]
          | false =>
            have hc : amendedScanCondition code pattern = false := by
              simp only [amendedScanCondition, hneg, hclean, hstar, if_true]
              simp_all
            simp [protectedScanLoop, List.find?, hneg, hclean, hstar, hsuf, hc, ih]
        | false =>
          cases hcont : strContains code (rstripSlash pattern) with
          | true =>
            have hc : amendedScanCondition code pattern = true := by
              simp [amendedScanCondition, hneg, hclean, hstar, hcont]
            simp [protectedScanLoop, List.find?, hneg, hclean, hstar, hcont, hc]
          | false =>
            have hc : amendedScanCondition code pattern = false := by
              simp [amendedScanCondition, hneg, hclean, hstar, hcont]
            simp [protectedScanLoop, List.find?, hneg, hclean, hstar, hcont, hc, ih]

/-! ## Claim theorems -/

/-- Claim C1: for every `FileAccessGuard` constructed enabled with a
working directory, and every path whose symlink-resolved form lies
outside the resolved working directory (including a path reached via a
symlink inside the working directory that points outside it),
`is_path_allowed` never returns allowed: it returns `(false, reason)`
with the reason containing `"outside"`. -/
theorem isPathAllowed_outside_denied (env : ResolveEnv) (g : FileAccessGuard)
    (path wd : String) (hen : g.enabled = true) (hwd : g.working_dir = some wd)
    (hout : ¬ env.realpath wd <+: env.realpath path) :
    (is_path_allowed env g path).1 = false ∧
      strContains (is_path_allowed env g path).2 "outside" = true := by
  have hne : commonpath (env.realpath wd) (env.realpath path) ≠ env.realpath wd :=
    fun hc => hout (prefix_of_commonpath_eq _ _ hc)
  have hmain : is_path_allowed env g path =
      (false, "Path " ++ quoted path ++ " is outside the allowed working directory.") := by
    simp [is_path_allowed, hen, hwd, hne]
  rw [hmain]
  exact ⟨rfl, strContains_append_left _ _ _ (by decide)⟩

theorem isPathAllowed_outside_denied_witness :
    (is_path_allowed ⟨fun s => if s = "/wd" then ["", "wd"] else ["", "etc", "passwd"]⟩
        ⟨true, some "/wd", []⟩ "/wd/link").1 = false ∧
      strContains (is_path_allowed
        ⟨fun s => if s = "/wd" then ["", "wd"] else ["", "etc", "passwd"]⟩
        ⟨true, some "/wd", []⟩ "/wd/link").2 "outside" = true :=
  isPathAllowed_outside_denied
    ⟨fun s => if s = "/wd" then ["", "wd"] else ["", "etc", "passwd"]⟩
    ⟨true, some "/wd", []⟩ "/wd/link" "/wd" rfl rfl (by decide)

/-- Claim C5: for every `FileAccessGuard` that is disabled or has no
configured working directory, and every path, `is_path_allowed` returns
`(true, "")`: containment is fail-open and opt-in. -/
theorem isPathAllowed_failopen (env : ResolveEnv) (g : FileAccessGuard) (path : String)
    (h : g.enabled = false ∨ g.working_dir = none) :
    is_path_allowed env g path = (true, "") := by
  rcases h with h | h <;> simp [is_path_allowed, h]

theorem isPathAllowed_failopen_witness :
    is_path_allowed ⟨fun _ => ["", "etc", "passwd"]⟩ ⟨false, some "/wd", ["*.log"]⟩
      "/etc/passwd" = (true, "") :=
  isPathAllowed_failopen ⟨fun _ => ["", "etc", "passwd"]⟩
    ⟨false, some "/wd", ["*.log"]⟩ "/etc/passwd" (Or.inl rfl)

/-- Claim C10: `is_command_blocked` also applies the plain substring test
to pipe-containing patterns.  A pattern with three pipe-separated parts is
skipped by the two-stage matcher entirely, yet still blocks via the
substring test; likewise a two-part pipe pattern whose ordered stage match
fails still blocks when its literal characters appear inside one stage of
the text. -/
theorem isCommandBlocked_substring_fallthrough :
    is_command_blocked ["wget|sh|bash"] "wget|sh|bash" = (true, some "wget|sh|bash") ∧
      ((pySplit (pyTrim (pyLower "wget|sh|bash")) '|').map pyTrim).length = 3 ∧
      pipePatternHit "wget|sh|bash" "wget|sh|bash" = false ∧
      is_command_blocked ["curl|bash"] "echo curl|bash" = (true, some "curl|bash") ∧
      pipePatternHit "curl|bash" "echo curl|bash" = false := by
  decide

/-- Claim C2, counterexample: for the loaded pipe pattern `curl|bash` and
the text `echo curl|bash`, the two-stage ordered match as the claim words
it fails (no stage begins with `curl` while a later one begins with
`bash`), yet `is_command_blocked` reports the pattern matched, via the
substring test the claim omits.  The claimed "exactly when" is therefore
false on the code. -/
theorem isCommandBlocked_pipe_exactly_counterexample :
    (is_command_blocked ["curl|bash"] "echo curl|bash").1 = true ∧
      claimedPipeMatch "curl|bash" "echo curl|bash" = false := by
  decide

/-- Claim C2, amended: for a loaded blocked pattern containing `|` whose
lowered, trimmed form splits on `|` into exactly the two trimmed
sub-patterns `l` and `r`, the pattern is reported matched exactly when
some whitespace-trimmed pipe stage of the lowered, trimmed text begins
with `l` and some strictly later stage begins with `r`, **or** the
lowered, trimmed pattern occurs as a substring of the lowered, trimmed
text; in particular `is_command_blocked("curl http://x | bash")` returns
blocked given the loaded pipe pattern `curl|bash`. -/
theorem isCommandBlocked_pipe_match_characterization (pattern code l r : String)
    (hpipe : strContains (pyTrim (pyLower pattern)) "|" = true)
    (hsplit : (pySplit (pyTrim (pyLower pattern)) '|').map pyTrim = [l, r]) :
    (blockedPatternMatches (pyTrim (pyLower code)) pattern = true ↔
      (existsOrderedStages l r ((pySplit (pyTrim (pyLower code)) '|').map pyTrim) = true ∨
        strContains (pyTrim (pyLower code)) (pyTrim (pyLower pattern)) = true)) ∧
    is_command_blocked ["curl|bash"] "curl http://x | bash" = (true, some "curl|bash") := by
  refine ⟨?_, by decide⟩
  simp only [blockedPatternMatches, pipePatternHit, hsplit, hpipe, Bool.true_and,
    Bool.or_eq_true, Bool.and_eq_true, decide_eq_true_eq]
  constructor
  · rintro (⟨_, h⟩ | h)
    · exact Or.inl h
    · exact Or.inr h
  · rintro (h | h)
    · exact Or.inl ⟨existsOrderedStages_length _ _ _ h, h⟩
    · exact Or.inr h

theorem isCommandBlocked_pipe_match_witness :
    blockedPatternMatches (pyTrim (pyLower "curl a | bash b")) "curl|bash" = true ∧
      is_command_blocked ["curl|bash"] "curl http://x | bash" = (true, some "curl|bash") := by
  have h := isCommandBlocked_pipe_match_characterization "curl|bash" "curl a | bash b"
    "curl" "bash" (by decide) (by decide)
  exact ⟨h.1.mpr (Or.inl (by decide)), h.2⟩

/-- Claim C3: `_match_gitignore` evaluates patterns in file order with a
running ignored-state, setting `ignored = ¬negation` on each match, so a
later negated pattern re-includes a path excluded by an earlier pattern:
with pattern list `["*.log", "!important.log"]`, a `debug.log` inside
the working directory is denied and an `important.log` inside it is
allowed. -/
theorem isPathAllowed_negation_override (env : ResolveEnv) (g : FileAccessGuard)
    (wd pdbg pimp : String) (W : List String)
    (hen : g.enabled = true) (hwd : g.working_dir = some wd)
    (hpats : g.gitignore_patterns = ["*.log", "!important.log"])
    (hW : env.realpath wd = W)
    (hdbg : env.realpath pdbg = W ++ ["debug.log"])
    (himp : env.realpath pimp = W ++ ["important.log"]) :
    (is_path_allowed env g pdbg).1 = false ∧
      is_path_allowed env g pimp = (true, "") := by
  have hm1 : match_gitignore "debug.log" ["*.log", "!important.log"] = true := by decide
  have hm2 : match_gitignore "important.log" ["*.log", "!important.log"] = false := by decide
  constructor
  · simp [is_path_allowed, hen, hwd, hpats, hW, hdbg, commonpath_append,
      relpathUnder_append, joinComponents, hm1]
  · simp [is_path_allowed, hen, hwd, hpats, hW, himp, commonpath_append,
      relpathUnder_append, joinComponents, hm2]

theorem isPathAllowed_negation_override_witness :
    (is_path_allowed exampleEnv ⟨true, some "/wd", ["*.log", "!important.log"]⟩
        "/wd/debug.log").1 = false ∧
      is_path_allowed exampleEnv ⟨true, some "/wd", ["*.log", "!important.log"]⟩
        "/wd/important.log" = (true, "") :=
  isPathAllowed_negation_override exampleEnv
    ⟨true, some "/wd", ["*.log", "!important.log"]⟩
    "/wd" "/wd/debug.log" "/wd/important.log" ["", "wd"]
    rfl rfl rfl (by decide) (by decide) (by decide)

/-- Claim C4: for every enabled guard with a configured working directory
and every path strictly inside the working directory whose relative path
matches no ignore pattern, `is_path_allowed` returns `(true, "")`; in
particular a bare pattern `secret` matches only by exact equality or with
a path-separator boundary, so it does not block `secrets_public.txt`. -/
theorem isPathAllowed_inside_clean :
    (∀ (env : ResolveEnv) (g : FileAccessGuard) (wd path : String) (W rest : List String),
      g.enabled = true → g.working_dir = some wd →
      env.realpath wd = W → env.realpath path = W ++ rest → rest ≠ [] →
      match_gitignore (joinComponents rest) g.gitignore_patterns = false →
      is_path_allowed env g path = (true, "")) ∧
    match_gitignore "secrets_public.txt" ["secret"] = false := by
  refine ⟨?_, by decide⟩
  intro env g wd path W rest hen hwd hW hpath hne hmatch
  simp [is_path_allowed, hen, hwd, hW, hpath, commonpath_append,
    relpathUnder_append _ _ hne, hmatch]

theorem isPathAllowed_inside_clean_witness :
    is_path_allowed exampleEnv ⟨true, some "/wd", ["secret"]⟩
      "/wd/secrets_public.txt" = (true, "") :=
  isPathAllowed_inside_clean.1 exampleEnv ⟨true, some "/wd", ["secret"]⟩
    "/wd" "/wd/secrets_public.txt" ["", "wd"] ["secrets_public.txt"]
    rfl rfl (by decide) (by decide) (by decide) (by decide)

/-- Claim C6, counterexample: for the enabled guard with pattern list
`["*"]` and the code `print(1)`, the claim's flagging condition holds
(the pattern begins with `*` and its remaining suffix, the empty string,
occurs as a substring of any code), yet `check_code_for_protected_access`
returns `(false, "")`, because the source skips a wildcard pattern whose
remaining suffix is empty. -/
theorem checkCode_claim_counterexample :
    check_code_for_protected_access "print(1)" (some ⟨true, none, ["*"]⟩) = (false, "") ∧
      claimedScanFlag "print(1)" (some ⟨true, none, ["*"]⟩) = true := by
  decide

/-- Claim C6, amended: `check_code_for_protected_access` returns
`(false, "")` whenever the guard is absent, disabled, or has an empty
pattern list; otherwise it flags exactly when some non-negated pattern,
with trailing `/` stripped, is nonempty and either begins with `*` and
its **nonempty** remaining suffix occurs as a substring of the code, or
does not begin with `*` and its literal text occurs as a substring of the
code — stopping at the first such pattern with a reason naming it.  The
last conjunct pins the full result: for an enabled guard with patterns,
the result is determined by `List.find?`, i.e. by the **first** pattern
satisfying the flag condition, and on a hit the returned reason is the
source's f-string naming exactly that pattern (the wildcard or the
file/directory wording according to the pattern's shape). -/
theorem checkCode_flag_characterization (code : String) (guard : Option FileAccessGuard) :
    (check_code_for_protected_access code none = (false, "")) ∧
    (∀ g, guard = some g → (g.enabled = false ∨ g.gitignore_patterns = []) →
      check_code_for_protected_access code guard = (false, "")) ∧
    ((check_code_for_protected_access code guard).1 = true ↔
      ∃ g, guard = some g ∧ g.enabled = true ∧
        ∃ p ∈ g.gitignore_patterns, amendedScanCondition code p = true) ∧
    (∀ g, guard = some g → g.enabled = true → g.gitignore_patterns ≠ [] →
      check_code_for_protected_access code guard =
        match g.gitignore_patterns.find? (amendedScanCondition code) with
        | some p =>
          (true,
            (if pyStartsWith (rstripSlash p) "*" then
              "Code references protected pattern "
             else "Code references protected file/directory ") ++ quoted p)
        | none => (false, "")) := by
  refine ⟨rfl, ?_, ?_, ?_⟩
  · rintro g rfl (h | h) <;> simp [check_code_for_protected_access, h]
  · cases guard with
    | none => simp [check_code_for_protected_access]
    | some g =>
      cases hen : g.enabled with
      | false => simp [check_code_for_protected_access, hen]
      | true =>
        cases hpats : g.gitignore_patterns.isEmpty with
        | true =>
          have : g.gitignore_patterns = [] := by
            cases hp : g.gitignore_patterns with
            | nil => rfl
            | cons a l => rw [hp] at hpats; simp at hpats
          simp [check_code_for_protected_access, hen, hpats, this]
        | false =>
          simp only [check_code_for_protected_access, hen, hpats, Bool.not_true,
            Bool.false_or, Bool.if_false_left, Bool.not_false, Bool.true_and,
            if_false, protectedScanLoop_eq]
          cases hf : g.gitignore_patterns.find? (amendedScanCondition code) with
          | none =>
            simp only [List.find?_eq_none] at hf
            simp only [Option.some.injEq]
            constructor
            · intro h; exact absurd h (by simp)
            · rintro ⟨g2, hg2, _, p, hp, hcond⟩
              cases hg2
              exact absurd hcond (by simpa using hf p hp)
          | some p =>
            have hmem := List.mem_of_find?_eq_some hf
            have hcond := List.find?_some hf
            simp only [Option.some.injEq]
            constructor
            · intro _; exact ⟨g, rfl, hen, p, hmem, hcond⟩
            · intro _; rfl
  · rintro g rfl hen hne
    have hpats : g.gitignore_patterns.isEmpty = false := by
      cases hp : g.gitignore_patterns with
      | nil => exact absurd hp hne
      | cons a l => rfl
    simp only [check_code_for_protected_access, hen, hpats, Bool.not_true,
      Bool.false_or, if_false]
    exact protectedScanLoop_eq code g.gitignore_patterns

theorem checkCode_flag_characterization_witness :
    (check_code_for_protected_access "cat id_rsa.key" (some ⟨true, none, ["*.key"]⟩)).1
        = true ∧
      check_code_for_protected_access "cat id_rsa.key" (some ⟨false, none, ["*.key"]⟩)
        = (false, "") ∧
      check_code_for_protected_access "cat id_rsa.key"
          (some ⟨true, none, ["!a", "*.key", "id_rsa"]⟩) =
        (true, "Code references protected pattern " ++ quoted "*.key") := by
  refine ⟨?_, ?_, ?_⟩
  · exact (checkCode_flag_characterization "cat id_rsa.key"
      (some ⟨true, none, ["*.key"]⟩)).2.2.1.mpr
      ⟨⟨true, none, ["*.key"]⟩, rfl, rfl, "*.key", by simp, by decide⟩
  · exact (checkCode_flag_characterization "cat id_rsa.key"
      (some ⟨false, none, ["*.key"]⟩)).2.1 ⟨false, none, ["*.key"]⟩ rfl (Or.inl rfl)
  · rw [(checkCode_flag_characterization "cat id_rsa.key"
      (some ⟨true, none, ["!a", "*.key", "id_rsa"]⟩)).2.2.2
      ⟨true, none, ["!a", "*.key", "id_rsa"]⟩ rfl rfl (by decide)]
    decide

/-- Claim C7: `cleanup_audit_log(max_age_days)` keeps a log line if and
only if the text before its first `|` parses as an ISO-8601 timestamp
that is at least `now` minus `max_age_days`, or unconditionally when that
text fails to parse; consequently pruning with `max_age_days = 0` removes
every pre-existing entry with a parseable earlier timestamp, and pruning
with `max_age_days = 365` immediately after an append retains the
appended entry. -/
theorem cleanupAuditLog_retention (parseIso : String → Option Int)
    (now maxAge t : Int) (lines old : List String) (line entry : String) :
    (line ∈ cleanup_audit_log parseIso now maxAge lines ↔
      line ∈ lines ∧
        ((∃ ts, parseIso (normalizeTimestampText (beforeFirstPipe line)) = some ts ∧
            now - maxAge * 86400 ≤ ts) ∨
          parseIso (normalizeTimestampText (beforeFirstPipe line)) = none)) ∧
    (parseIso (normalizeTimestampText (beforeFirstPipe line)) = some t → t < now →
      line ∉ cleanup_audit_log parseIso now 0 lines) ∧
    (parseIso (normalizeTimestampText (beforeFirstPipe entry)) = some t →
      now - 365 * 86400 ≤ t →
      entry ∈ cleanup_audit_log parseIso now 365 (old ++ [entry])) := by
  refine ⟨?_, ?_, ?_⟩
  · simp [cleanup_audit_log, List.mem_filter, keepLine_iff]
  · intro hp hlt hmem
    simp only [cleanup_audit_log, List.mem_filter, keepLine_iff, hp,
      Option.some.injEq, Bool.and_eq_true] at hmem
    obtain ⟨-, (⟨ts, hts, hle⟩ | habs)⟩ := hmem
    · subst hts
      omega
    · exact Option.noConfusion habs
  · intro hp hge
    simp only [cleanup_audit_log, List.mem_filter, keepLine_iff, hp]
    refine ⟨by simp, Or.inl ⟨t, rfl, ?_⟩⟩
    omega

theorem cleanupAuditLog_retention_witness :
    "t1 | x" ∉ cleanup_audit_log (fun s => if s = "t1" then some 50 else none)
        100 0 ["t1 | x"] ∧
      "t1 | x" ∈ cleanup_audit_log (fun s => if s = "t1" then some 50 else none)
        100 365 (["o"] ++ ["t1 | x"]) := by
  have h := cleanupAuditLog_retention (fun s => if s = "t1" then some 50 else none)
    100 7 50 ["t1 | x"] ["o"] "t1 | x" "t1 | x"
  exact ⟨h.2.1 (by decide) (by decide), h.2.2 (by decide) (by decide)⟩

/-- Claim C8: `audit_log(event_type, details)` appends exactly one new
line of the form `timestamp | event_type | details` to the audit log
file, creating the file with owner-only read/write permission `0o600`
when it does not exist, and any I/O failure during logging is reported to
stderr and never propagated to the caller: the call returns normally, and
its stderr output is empty exactly when no OS call failed. -/
theorem auditLog_append_and_no_raise (fault : OsFault) (ts et d : String)
    (fs : Option AuditFileState) :
    (fault = OsFault.nofault →
      audit_log fault ts et d fs =
        (some ⟨(fs.getD ⟨0o600, ""⟩).mode,
          (fs.getD ⟨0o600, ""⟩).contents ++ (ts ++ " | " ++ et ++ " | " ++ d ++ "\n")⟩,
          [])) ∧
    (fault = OsFault.nofault → fs = none →
      audit_log fault ts et d fs =
        (some ⟨0o600, ts ++ " | " ++ et ++ " | " ++ d ++ "\n"⟩, [])) ∧
    ((audit_log fault ts et d fs).2 = [] ↔ fault = OsFault.nofault) := by
  refine ⟨?_, ?_, ?_⟩
  · rintro rfl
    simp [audit_log, auditLogRaw, OsFault.nofault]
  · rintro rfl rfl
    simp [audit_log, auditLogRaw, OsFault.nofault, string_empty_append]
  · obtain ⟨m, o, w⟩ := fault
    cases m <;> cases o <;> cases w <;>
      simp [audit_log, auditLogRaw, OsFault.nofault]

theorem auditLog_append_witness :
    audit_log OsFault.nofault "T" "evt" "det" none =
        (some ⟨0o600, "T" ++ " | " ++ "evt" ++ " | " ++ "det" ++ "\n"⟩, []) ∧
      (audit_log ⟨false, true, false⟩ "T" "evt" "det" none).2 =
        ["Warning: failed to write audit log"] :=
  ⟨(auditLog_append_and_no_raise OsFault.nofault "T" "evt" "det" none).2.1 rfl rfl,
    by decide⟩

/-- Claim C9: for every path denied by the guard, `Files.edit` (via
`Files._check_access`) consults `is_path_allowed` before touching the
file, appends a `file_access_denied` audit entry, and raises a
`PermissionError` carrying exactly the guard's reason text, touching the
file neither for reading nor writing; when the path is allowed, no
permission error is raised and a `file_edit` audit entry is appended
before the file is read or written. -/
theorem filesEdit_guard_enforcement (env : ResolveEnv) (g : FileAccessGuard)
    (path ot rt fd : String) (cm : List String) (reason : String) :
    (is_path_allowed env g path = (false, reason) →
      Files.edit env g path ot rt fd cm =
        (.error (.permission reason), [.audit "file_access_denied" reason]) ∧
      FsEvent.readTarget ∉ (Files.edit env g path ot rt fd cm).2 ∧
      FsEvent.writeTarget ∉ (Files.edit env g path ot rt fd cm).2) ∧
    (is_path_allowed env g path = (true, "") →
      (∀ s, (Files.edit env g path ot rt fd cm).1 ≠ .error (.permission s)) ∧
      ∃ rest, (Files.edit env g path ot rt fd cm).2 =
        .audit "file_edit" ("path=" ++ path) :: .readTarget :: rest) := by
  constructor
  · intro h
    have he : Files.edit env g path ot rt fd cm =
        (.error (.permission reason), [.audit "file_access_denied" reason]) := by
      simp [Files.edit, Files.check_access, h]
    refine ⟨he, ?_, ?_⟩ <;> rw [he] <;> simp
  · intro h
    have hc : Files.check_access env g path = (.ok (), []) := by
      simp [Files.check_access, h]
    constructor
    · intro s
      cases hval : (!strContains fd ot && !cm.isEmpty) with
      | true => simp [Files.edit, hc, hval]
      | false => simp [Files.edit, hc, hval]
    · cases hval : (!strContains fd ot && !cm.isEmpty) with
      | true => exact ⟨[], by simp [Files.edit, hc, hval]⟩
      | false => exact ⟨[.writeTarget], by simp [Files.edit, hc, hval]⟩

theorem filesEdit_guard_enforcement_witness :
    Files.edit exampleEnv ⟨true, some "/wd", []⟩ "/etc/x" "a" "b" "data" [] =
        (.error (.permission
            (is_path_allowed exampleEnv ⟨true, some "/wd", []⟩ "/etc/x").2),
          [.audit "file_access_denied"
            (is_path_allowed exampleEnv ⟨true, some "/wd", []⟩ "/etc/x").2]) ∧
      (∃ rest, (Files.edit exampleEnv ⟨true, some "/wd", []⟩ "/wd/notes.txt"
          "a" "b" "data" []).2 =
        .audit "file_edit" ("path=" ++ "/wd/notes.txt") :: .readTarget :: rest) := by
  refine ⟨?_, ?_⟩
  · exact ((filesEdit_guard_enforcement exampleEnv ⟨true, some "/wd", []⟩ "/etc/x"
      "a" "b" "data" []
      (is_path_allowed exampleEnv ⟨true, some "/wd", []⟩ "/etc/x").2).1 (by decide)).1
  · exact ((filesEdit_guard_enforcement exampleEnv ⟨true, some "/wd", []⟩ "/wd/notes.txt"
      "a" "b" "data" [] "").2 (by decide)).2

end Security
